import Mathlib

/-!
Shallow embedding of the dice resolution engine (`dice_system.py`) and the
party data model (`party_builder.py`) of the repository, together with
theorems settling the specification claims about them.

Randomness is modelled by passing an explicit source `rng : Nat -> Nat`
giving the value produced by the i-th call to `random.randint(1, sides)`
inside a single roll; theorems that need it assume `1 <= rng i <= sides`,
which is exactly `randint`'s contract.
-/

namespace DiceSystem

/-- Value of a decimal digit string, as Python `int` computes it on a string
of ASCII digits (leading zeros allowed). -/
def digitsVal (cs : List Char) : Nat :=
  cs.foldl (fun acc c => acc * 10 + (c.toNat - '0'.toNat)) 0

/-- Models the Python built-in `int(s)` used for the modifier tail in
`_parse_dice_string`: an optional single sign followed by a non-empty run of
decimal digits.  (CPython additionally strips surrounding whitespace and
accepts underscores between digits and non-ASCII decimal digits; those exotic
forms are not modelled.)  The error message stands in for CPython's
`invalid literal` ValueError text. -/
def pyInt (cs : List Char) : Except String Int :=
  if cs.head? = some '+' then
    if cs.tail ≠ [] ∧ cs.tail.all Char.isDigit then .ok (digitsVal cs.tail)
    else .error ("invalid literal for int with base 10: " ++ String.mk cs)
  else if cs.head? = some '-' then
    if cs.tail ≠ [] ∧ cs.tail.all Char.isDigit then
      .ok (-(digitsVal cs.tail : Int))
    else .error ("invalid literal for int with base 10: " ++ String.mk cs)
  else
    if cs ≠ [] ∧ cs.all Char.isDigit then .ok (digitsVal cs)
    else .error ("invalid literal for int with base 10: " ++ String.mk cs)

/-- The die sizes in `DiceRoller.dice_types` (`d4` .. `d100`); membership of
`f'd{sides}' in self.dice_types` is equivalent to membership of the numeric
`sides` in this list. -/
def supported_sides : List Nat := [4, 6, 8, 10, 12, 20, 100]

/-- `DiceRoller._parse_dice_string`: strips spaces, parses
`[count]d<sides>[signed modifier]`, checks `sides` against the supported dice
types, and fails with the source's messages otherwise.  The count branch
models `re.match(r'^(\d+)d', ...)` (a maximal digit prefix followed by a
lowercase `d`), the sides step models `re.match(r'^(\d+)', ...)`, and the
modifier tail is handed to `pyInt` exactly as the source hands it to `int`. -/
def parse_dice_string (dice_string : String) : Except String (Nat × Nat × Int) :=
  let cs := dice_string.data.filter (fun c => c ≠ ' ')
  let step1 : Except String (Nat × List Char) :=
    if cs.head? = some 'd' then .ok (1, cs.tail)
    else
      let ds := cs.takeWhile Char.isDigit
      if ds.isEmpty then .error ("Неверный формат броска: " ++ String.mk cs)
      else
        let rest := cs.dropWhile Char.isDigit
        if rest.head? = some 'd' then .ok (digitsVal ds, rest.tail)
        else .error ("Неверный формат броска: " ++ String.mk cs)
  match step1 with
  | .error e => .error e
  | .ok (count, remaining) =>
    let sd := remaining.takeWhile Char.isDigit
    if sd.isEmpty then .error ("Неверный формат броска: " ++ String.mk cs)
    else
      let sides := digitsVal sd
      if supported_sides.contains sides then
        let rest := remaining.dropWhile Char.isDigit
        if rest.isEmpty then .ok (count, sides, 0)
        else if rest.head? = some '+' then
          match pyInt rest.tail with
          | .ok m => .ok (count, sides, m)
          | .error e => .error e
        else if rest.head? = some '-' then
          match pyInt rest.tail with
          | .ok m => .ok (count, sides, -m)
          | .error e => .error e
        else .error ("Неверный формат модификатора: " ++ String.mk rest)
      else .error ("Неподдерживаемый тип кости: d" ++ Nat.repr sides)

/-- The result dictionary built by `DiceRoller`: the keys the various methods
may attach, each optional exactly as in the Python dict (absent = `none`). -/
structure Outcome where
  dice_string : String
  error : Option String := none
  count : Option Nat := none
  sides : Option Nat := none
  modifier : Option Int := none
  rolls : Option (List Nat) := none
  total : Int := 0
  is_critical : Option Bool := none
  is_fumble : Option Bool := none
  advantage : Option Bool := none
  disadvantage : Option Bool := none
  ability_modifier : Option Int := none
  attack_bonus : Option Int := none
  damage_bonus : Option Int := none
  dex_modifier : Option Int := none
  deriving Repr, DecidableEq

/-- `DiceRoller._check_critical`: `sides == 20 and 20 in rolls`. -/
def check_critical (rolls : List Nat) (sides : Nat) : Bool :=
  sides == 20 && rolls.contains 20

/-- `DiceRoller._check_fumble`: `sides == 20 and 1 in rolls`. -/
def check_fumble (rolls : List Nat) (sides : Nat) : Bool :=
  sides == 20 && rolls.contains 1

/-- `DiceRoller.roll_dice`: parse, roll `count` dice (the i-th die is
`rng i`, standing for `random.randint(1, sides)`), sum with the modifier,
classify critical/fumble; a parse failure is caught and returned as the
error dictionary `{'dice_string': ..., 'error': ..., 'total': 0}`. -/
def roll_dice (rng : Nat → Nat) (dice_string : String) : Outcome :=
  match parse_dice_string dice_string with
  | .ok (count, sides, modifier) =>
    let rolls := (List.range count).map rng
    { dice_string := dice_string
      count := some count
      sides := some sides
      modifier := some modifier
      rolls := some rolls
      total := (rolls.sum : Int) + modifier
      is_critical := some (check_critical rolls sides)
      is_fumble := some (check_fumble rolls sides) }
  | .error e =>
    { dice_string := dice_string, error := some e, total := 0 }

/-- `DiceRoller.roll_ability_check`: advantage and disadvantage cancel when
both are set; advantage keeps the d20 outcome with the strictly greater
`total` (ties keep the second, as `roll1['total'] > roll2['total']` fails on
ties), disadvantage the strictly smaller; the ability modifier is added to
the kept outcome's total afterwards and recorded.  The two potential `d20`
rolls draw from `rng1` and `rng2`; the plain branch performs a single roll,
from `rng1`. -/
def roll_ability_check (rng1 rng2 : Nat → Nat) (ability_modifier : Int)
    (advantage disadvantage : Bool) : Outcome :=
  let flags := if advantage && disadvantage then (false, false)
               else (advantage, disadvantage)
  let result :=
    if flags.1 then
      let roll1 := roll_dice rng1 "d20"
      let roll2 := roll_dice rng2 "d20"
      let r := if roll1.total > roll2.total then roll1 else roll2
      { r with advantage := some true }
    else if flags.2 then
      let roll1 := roll_dice rng1 "d20"
      let roll2 := roll_dice rng2 "d20"
      let r := if roll1.total < roll2.total then roll1 else roll2
      { r with disadvantage := some true }
    else
      roll_dice rng1 "d20"
  { result with total := result.total + ability_modifier,
                ability_modifier := some ability_modifier }

/-- `DiceRoller.roll_attack`. -/
def roll_attack (rng : Nat → Nat) (attack_bonus : Int) : Outcome :=
  let result := roll_dice rng "d20"
  { result with total := result.total + attack_bonus,
                attack_bonus := some attack_bonus }

/-- `DiceRoller.roll_damage`: roll the notation, then add `damage_bonus`
to whatever `total` came back (also on the error dictionary, whose total
is 0) and record the bonus. -/
def roll_damage (rng : Nat → Nat) (damage_dice : String) (damage_bonus : Int) :
    Outcome :=
  let result := roll_dice rng damage_dice
  { result with total := result.total + damage_bonus,
                damage_bonus := some damage_bonus }

/-- `DiceRoller.roll_initiative`. -/
def roll_initiative (rng : Nat → Nat) (dex_modifier : Int) : Outcome :=
  let result := roll_dice rng "d20"
  { result with total := result.total + dex_modifier,
                dex_modifier := some dex_modifier }

/-- What a successful `roll_dice` outcome must look like for a notation
denoting `N` dice with `S` sides and modifier `M`: no error, the parsed
fields recorded, `N` individual rolls each in `[1, S]`, and a total of
`sum(rolls) + M`. -/
def valid_roll (out : Outcome) (s : String) (N S : Nat) (M : Int) : Prop :=
  out.dice_string = s ∧ out.error = none ∧ out.count = some N ∧
  out.sides = some S ∧ out.modifier = some M ∧
  ∃ rolls, out.rolls = some rolls ∧ rolls.length = N ∧
    (∀ x ∈ rolls, 1 ≤ x ∧ x ≤ S) ∧ out.total = (rolls.sum : Int) + M

end DiceSystem

namespace PartyModel

/-- `STAT_KEYS` from `party_builder.py`. -/
def STAT_KEYS : List String := ["str", "dex", "int", "wit", "charm"]

def MIN_STAT : Int := -1
def MAX_STAT : Int := 3
def MIN_HP : Int := 8
def MAX_HP : Int := 14

/-- The `PartyValidationError` messages, one constructor per distinct
message raised in `party_builder.py`.  `statNotInt` and `hpNotInt`
correspond to the `isinstance(..., int)` checks, unreachable in this
embedding because stats and hp are typed as integers. -/
inductive PartyValidationError where
  | idMissing
  | nameMissing
  | roleMissing
  | conceptMissing
  | statsKeys
  | statNotInt (key : String)
  | statOutOfRange (key : String)
  | traitsCount
  | loadoutCount
  | traitEmpty
  | loadoutEmpty
  | hpNotInt
  | hpOutOfRange
  | tagsCount
  | tagEmpty
  | partyFull
  | duplicateId (id : String)
  deriving Repr, DecidableEq

/-- `PartyMember`: the stats dict is modelled as its insertion-ordered list
of key/value entries (Python dict keys are unique). -/
structure PartyMember where
  id : String
  name : String
  role : String
  concept : String
  stats : List (String × Int)
  traits : List String
  loadout : List String
  hp : Int
  tags : List String := []
  deriving Repr, DecidableEq

/-- Python set equality of two key lists, as in
`set(self.stats.keys()) != set(STAT_KEYS)`. -/
def setEqStr (a b : List String) : Bool :=
  a.all (fun x => b.contains x) && b.all (fun x => a.contains x)

/-- `PartyMember.validate`, check for check in the source's order; empty
strings are falsy in Python, so `not self.id` is `id = ""`.  The stat-range
loop reports the first entry (in dict insertion order) whose value is out of
`[MIN_STAT, MAX_STAT]`; the `isinstance` branches cannot fire here since the
embedding types the values as `Int`. -/
def validate (m : PartyMember) : Except PartyValidationError Unit :=
  if m.id = "" then .error .idMissing
  else if m.name = "" then .error .nameMissing
  else if m.role = "" then .error .roleMissing
  else if m.concept = "" then .error .conceptMissing
  else if ¬ setEqStr (m.stats.map Prod.fst) STAT_KEYS then .error .statsKeys
  else
    match m.stats.find? (fun kv => kv.2 < MIN_STAT || kv.2 > MAX_STAT) with
    | some kv => .error (.statOutOfRange kv.1)
    | none =>
      if m.traits.length ≠ 2 then .error .traitsCount
      else if m.loadout.length ≠ 2 then .error .loadoutCount
      else if m.traits.any (fun t => t = "") then .error .traitEmpty
      else if m.loadout.any (fun t => t = "") then .error .loadoutEmpty
      else if m.hp < MIN_HP ∨ m.hp > MAX_HP then .error .hpOutOfRange
      else if ¬ (0 < m.tags.length ∧ m.tags.length ≤ 2) then .error .tagsCount
      else if m.tags.any (fun t => t = "") then .error .tagEmpty
      else .ok ()

/-- `PartyBuilder`'s mutable state. -/
structure PartyBuilder where
  members : List PartyMember := []
  coin : Int := 0
  rations : Int := 0
  party_tags : List String := []
  deriving Repr, DecidableEq

/-- `PartyBuilder.MAX_MEMBERS`. -/
def MAX_MEMBERS : Nat := 3

/-- `PartyBuilder.add_member`: party-full check, duplicate-id check, then
full validation; only after all three succeed is the member appended.  A
Python raise leaves the builder untouched, which the `Except` encoding
expresses by returning no updated builder on error. -/
def add_member (b : PartyBuilder) (m : PartyMember) :
    Except PartyValidationError PartyBuilder :=
  if b.members.length ≥ MAX_MEMBERS then .error .partyFull
  else if b.members.any (fun e => e.id = m.id) then .error (.duplicateId m.id)
  else
    match validate m with
    | .error e => .error e
    | .ok _ => .ok { b with members := b.members ++ [m] }

/-- Lookup in the stats dict, `member.stats[key]`; total with default 0
where Python would raise `KeyError` on a missing key (never hit on members
that passed validation, whose key set is exactly `STAT_KEYS`). -/
def dictGet (d : List (String × Int)) (k : String) : Int :=
  ((d.find? (fun kv => kv.1 = k)).map Prod.snd).getD 0

/-- Python tuple comparison `(a, b) > (c, d)` on int pairs, used by
`max(..., key=lambda key: (stats[key], -priority[key]))`. -/
def tupleGt (p q : Int × Int) : Bool :=
  p.1 > q.1 || (p.1 == q.1 && p.2 > q.2)

/-- `PartyBuilder._determine_key_stat`: `max` over `STAT_KEYS` keyed by
`(stats[key], -priority[key])`; CPython's `max` keeps the first element and
replaces it only when a later element's key compares strictly greater. -/
def determine_key_stat (stats : List (String × Int)) : String :=
  let keyf := fun k => (dictGet stats k, -(STAT_KEYS.indexOf k : Int))
  match STAT_KEYS with
  | [] => ""
  | k0 :: rest => rest.foldl (fun best k => if tupleGt (keyf k) (keyf best) then k else best) k0

/-- Python `str.upper()` as used on the ASCII stat keys: per-character
uppercasing. -/
def pyUpper (s : String) : String :=
  String.mk (s.data.map Char.toUpper)

/-- Python `f"{v:+d}"`: always-signed decimal rendering. -/
def formatSigned (v : Int) : String :=
  if v ≥ 0 then "+" ++ toString v else toString v

/-- `PartyBuilder._member_to_compact`: the one-line summary
`{name}-{role} {KEY}{signed value} HP{hp} - {loadout}; черты: {traits}`. -/
def member_to_compact (m : PartyMember) : String :=
  let key_stat := determine_key_stat m.stats
  let key_value := dictGet m.stats key_stat
  let value_str := pyUpper key_stat ++ formatSigned key_value
  let items := String.intercalate ", " m.loadout
  let traits := String.intercalate ", " m.traits
  m.name ++ "-" ++ m.role ++ " " ++ value_str ++ " HP" ++ toString m.hp
    ++ " - " ++ items ++ "; черты: " ++ traits

/-- A concrete fully valid member, with the tied stats
`{str: 2, dex: 2, int: 0, wit: 0, charm: 0}` from the spec's tie-break
example. -/
def sampleMember : PartyMember :=
  { id := "a", name := "Alice", role := "warrior", concept := "scout",
    stats := [("str", 2), ("dex", 2), ("int", 0), ("wit", 0), ("charm", 0)],
    traits := ["brave", "kind"], loadout := ["sword", "shield"],
    hp := 10, tags := ["t"] }

/-- `sampleMember` with an empty second trait and a one-item loadout:
two rules are violated at once, probing which check fires first. -/
def sampleMemberBad : PartyMember :=
  { sampleMember with traits := ["brave", ""], loadout := ["sword"] }

/-- A builder already holding three distinct members. -/
def fullBuilder : PartyBuilder :=
  { members := [{ sampleMember with id := "a" },
                { sampleMember with id := "b" },
                { sampleMember with id := "c" }] }

end PartyModel

namespace Helpers

theorem takeWhile_append_cons {α : Type} (p : α → Bool) (l : List α) (c : α)
    (t : List α) (hl : ∀ x ∈ l, p x = true) (hc : p c = false) :
    (l ++ c :: t).takeWhile p = l ∧ (l ++ c :: t).dropWhile p = c :: t := by
  induction l with
  | nil => simp [List.takeWhile_cons, List.dropWhile_cons, hc]
  | cons a l ih =>
    have ha : p a = true := hl a (List.mem_cons_self a l)
    have ih' := ih (fun x hx => hl x (List.mem_cons_of_mem a hx))
    simp [List.takeWhile_cons, List.dropWhile_cons, ha, ih'.1, ih'.2]

theorem takeWhile_eq_self_of {α : Type} (p : α → Bool) (l : List α)
    (hl : ∀ x ∈ l, p x = true) :
    l.takeWhile p = l ∧ l.dropWhile p = [] :=
  ⟨List.takeWhile_eq_self_iff.mpr hl, List.dropWhile_eq_nil_iff.mpr hl⟩

theorem digit_ne_of {c c0 : Char} (h : c.isDigit = true)
    (h0 : c0.isDigit = false) : c ≠ c0 := by
  rintro rfl
  rw [h] at h0
  cases h0

end Helpers

namespace DiceSystem

/-- **C3.** For every successful roll outcome, `is_critical` holds iff the
die is a d20 and some individual roll shows 20, `is_fumble` iff it is a d20
and some roll shows 1, and for any other die both flags are false. -/
theorem roll_critical_fumble_iff (rng : Nat → Nat) (s : String)
    (h : (roll_dice rng s).error = none) :
    ∃ rolls sides, (roll_dice rng s).rolls = some rolls ∧
      (roll_dice rng s).sides = some sides ∧
      ((roll_dice rng s).is_critical = some true ↔ sides = 20 ∧ 20 ∈ rolls) ∧
      ((roll_dice rng s).is_fumble = some true ↔ sides = 20 ∧ 1 ∈ rolls) ∧
      (sides ≠ 20 → (roll_dice rng s).is_critical = some false ∧
        (roll_dice rng s).is_fumble = some false) := by
  unfold roll_dice at h ⊢
  cases hp : parse_dice_string s with
  | error e => rw [hp] at h; simp at h
  | ok t =>
    obtain ⟨c, sd, m⟩ := t
    refine ⟨(List.range c).map rng, sd, rfl, rfl, ?_, ?_, ?_⟩
    · simp [check_critical, List.elem_iff]
    · simp [check_fumble, List.elem_iff]
    · intro hne
      simp [check_critical, check_fumble, hne]

theorem roll_critical_fumble_iff_witness :
    (roll_dice (fun _ => 3) "d20").error = none ∧
    (∃ rolls sides, (roll_dice (fun _ => 3) "d20").rolls = some rolls ∧
      (roll_dice (fun _ => 3) "d20").sides = some sides ∧
      ((roll_dice (fun _ => 3) "d20").is_critical = some true ↔
        sides = 20 ∧ 20 ∈ rolls) ∧
      ((roll_dice (fun _ => 3) "d20").is_fumble = some true ↔
        sides = 20 ∧ 1 ∈ rolls) ∧
      (sides ≠ 20 → (roll_dice (fun _ => 3) "d20").is_critical = some false ∧
        (roll_dice (fun _ => 3) "d20").is_fumble = some false)) :=
  ⟨rfl, roll_critical_fumble_iff (fun _ => 3) "d20" rfl⟩

/-- **C7 counterexample.** The notation `"0d6"` with a leading count of 0 is
accepted by the parser: `roll_dice` returns a success outcome (no error)
recording `count = 0`. -/
theorem zero_count_accepted :
    (roll_dice (fun _ => 1) "0d6").error = none ∧
    (roll_dice (fun _ => 1) "0d6").count = some 0 := ⟨rfl, rfl⟩

/-- **C7 (amended).** The parser guarantees only `count >= 0`: a leading
count of `0` is accepted, and `"0d6"` yields a success outcome with
`count = 0`, an empty rolls list and total 0 (the absent modifier). -/
theorem zero_count_roll (rng : Nat → Nat) :
    roll_dice rng "0d6" =
      { dice_string := "0d6", count := some 0, sides := some 6,
        modifier := some 0, rolls := some [], total := 0,
        is_critical := some false, is_fumble := some false } := rfl

/-- **C8 counterexample.** On the invalid notation `"xyz"` with
`damage_bonus = 5`, `roll_damage` returns an error-outcome whose total is
`5`, not `0` as the claim states. -/
theorem roll_damage_error_total_not_zero :
    (roll_damage (fun _ => 1) "xyz" 5).error ≠ none ∧
    (roll_damage (fun _ => 1) "xyz" 5).total = 5 := by
  refine ⟨?_, rfl⟩
  intro h
  simp [roll_damage, roll_dice, parse_dice_string] at h

/-- **C8 (amended).** For every invalid damage notation and every bonus,
`roll_damage` never raises: it returns an error-outcome carrying the
original input string, the parse error message, no rolls, the
`damage_bonus` recorded, and a total equal to `damage_bonus` (the error
outcome's `0` plus the bonus). -/
theorem roll_damage_error_shape (rng : Nat → Nat) (s : String) (bonus : Int)
    (e : String) (h : parse_dice_string s = .error e) :
    roll_damage rng s bonus =
      { dice_string := s, error := some e, total := bonus,
        damage_bonus := some bonus } := by
  unfold roll_damage roll_dice
  rw [h]
  simp

theorem roll_damage_error_shape_witness :
    parse_dice_string "xyz" = .error ("Неверный формат броска: " ++ "xyz") ∧
    roll_damage (fun _ => 1) "xyz" 5 =
      { dice_string := "xyz",
        error := some ("Неверный формат броска: " ++ "xyz"), total := 5,
        damage_bonus := some 5 } :=
  ⟨rfl, roll_damage_error_shape (fun _ => 1) "xyz" 5 _ rfl⟩

end DiceSystem

namespace DiceSystem

/-- **C9 counterexample.** The parser is case-sensitive and strips only the
space character: `"D20"` (uppercase) is rejected while `"d20"` parses, and
a tab between count and `"d"` is not stripped and causes a failure. -/
theorem uppercase_d_rejected :
    (roll_dice (fun _ => 1) "D20").error ≠ none ∧
    (roll_dice (fun _ => 1) "d20").error = none ∧
    (roll_dice (fun _ => 1) "2\td6").error ≠ none := by
  refine ⟨?_, rfl, ?_⟩ <;> intro h <;>
    simp [roll_dice, parse_dice_string] at h

/-- **C9 (amended).** The dice notation parser strips interior space
characters (only `' '`; other whitespace is left in place) before parsing,
and the leading `"d"` marker is case-sensitive lowercase: parsing depends
only on the space-stripped character list, `"d20"` parses successfully to
count 1 and sides 20, and the same string with an uppercase `"D"` is
rejected with a format error. -/
theorem parse_space_stripping_lowercase_d :
    (∀ s t : String,
      s.data.filter (fun c => c ≠ ' ') = t.data.filter (fun c => c ≠ ' ') →
      parse_dice_string s = parse_dice_string t) ∧
    (∀ rng : Nat → Nat,
      (roll_dice rng "d20").error = none ∧
      (roll_dice rng "d20").count = some 1 ∧
      (roll_dice rng "d20").sides = some 20 ∧
      (roll_dice rng "D20").error = some ("Неверный формат броска: " ++ "D20") ∧
      (roll_dice rng "D20").total = 0 ∧
      (roll_dice rng "D20").rolls = none) := by
  constructor
  · intro s t h
    simp only [parse_dice_string, h]
  · intro rng
    exact ⟨rfl, rfl, rfl, rfl, rfl, rfl⟩

theorem parse_space_stripping_lowercase_d_witness :
    (String.mk ("2 d6 + 3".data.filter (fun c => c ≠ ' '))) = "2d6+3" ∧
    parse_dice_string "2 d6 + 3" = parse_dice_string "2d6+3" :=
  ⟨rfl, parse_space_stripping_lowercase_d.1 "2 d6 + 3" "2d6+3" rfl⟩

end DiceSystem

namespace DiceSystem

/-- **C4.** Requesting advantage and disadvantage together behaves exactly
like a plain single d20 roll; with advantage only, the outcome kept is the
one with the higher pre-modifier total (its total becomes the max of the two
rolled totals), with disadvantage the lower; in every case the ability
modifier is added exactly once, after selection, and recorded as
`ability_modifier`, so it never influences which roll is kept. -/
theorem roll_ability_check_spec (rng1 rng2 : Nat → Nat) (m : Int) :
    roll_ability_check rng1 rng2 m true true =
      roll_ability_check rng1 rng2 m false false ∧
    (roll_ability_check rng1 rng2 m false false).total =
      (roll_dice rng1 "d20").total + m ∧
    ((roll_ability_check rng1 rng2 m true false).total =
      max (roll_dice rng1 "d20").total (roll_dice rng2 "d20").total + m ∧
     (roll_ability_check rng1 rng2 m true false).advantage = some true) ∧
    ((roll_ability_check rng1 rng2 m false true).total =
      min (roll_dice rng1 "d20").total (roll_dice rng2 "d20").total + m ∧
     (roll_ability_check rng1 rng2 m false true).disadvantage = some true) ∧
    (∀ adv dis : Bool,
      (roll_ability_check rng1 rng2 m adv dis).ability_modifier = some m) := by
  refine ⟨rfl, rfl, ⟨?_, ?_⟩, ⟨?_, ?_⟩, ?_⟩
  · by_cases h : (roll_dice rng1 "d20").total > (roll_dice rng2 "d20").total
    · simp [roll_ability_check, h, max_eq_left h.le]
    · simp [roll_ability_check, h, max_eq_right (not_lt.mp h)]
  · simp [roll_ability_check]
  · by_cases h : (roll_dice rng1 "d20").total < (roll_dice rng2 "d20").total
    · simp [roll_ability_check, h, min_eq_left h.le]
    · simp [roll_ability_check, h, min_eq_right (not_lt.mp h)]
  · simp [roll_ability_check]
  · intro adv dis
    cases adv <;> cases dis <;> rfl

end DiceSystem

namespace PartyModel

/-- **C5.** `add_member` rejects with `partyFull` when the builder already
holds `MAX_MEMBERS` members and with `duplicateId` when the new member's id
equals an existing member's id; otherwise it runs full validation and any
validation error is returned unchanged; a successful add appends the member
at the end, touching nothing else; and the at-most-3-members /
pairwise-distinct-ids invariant is preserved by every successful add (a
failed add returns no builder, leaving the original untouched). -/
theorem add_member_spec (b : PartyBuilder) (m : PartyMember) :
    (b.members.length ≥ MAX_MEMBERS → add_member b m = .error .partyFull) ∧
    (b.members.length < MAX_MEMBERS →
      (∃ e ∈ b.members, e.id = m.id) →
      add_member b m = .error (.duplicateId m.id)) ∧
    (b.members.length < MAX_MEMBERS →
      (∀ e ∈ b.members, e.id ≠ m.id) →
      ∀ err, validate m = .error err → add_member b m = .error err) ∧
    (∀ b', add_member b m = .ok b' →
      validate m = .ok () ∧ b'.members = b.members ++ [m] ∧
      b'.coin = b.coin ∧ b'.rations = b.rations ∧
      b'.party_tags = b.party_tags) ∧
    (b.members.length ≤ MAX_MEMBERS →
      b.members.Pairwise (fun x y => x.id ≠ y.id) →
      ∀ b', add_member b m = .ok b' →
        b'.members.length ≤ MAX_MEMBERS ∧
        b'.members.Pairwise (fun x y => x.id ≠ y.id)) := by
  have hok : ∀ b', add_member b m = .ok b' →
      (¬ b.members.length ≥ MAX_MEMBERS) ∧
      (b.members.any (fun e => e.id = m.id)) = false ∧
      validate m = .ok () ∧ b' = { b with members := b.members ++ [m] } := by
    intro b' h
    unfold add_member at h
    split_ifs at h with h1 h2
    · cases hv : validate m with
      | error e => rw [hv] at h; simp at h
      | ok u =>
        cases u
        rw [hv] at h
        simp only [Except.ok.injEq] at h
        subst h
        exact ⟨h1, by simpa using h2, rfl, rfl⟩
  refine ⟨?_, ?_, ?_, ?_, ?_⟩
  · intro h
    simp [add_member, h]
  · rintro h1 ⟨e, he, hid⟩
    have hany : (b.members.any (fun e => e.id = m.id)) = true :=
      List.any_eq_true.mpr ⟨e, he, by simp [hid]⟩
    simp [add_member, Nat.not_le.mpr h1, hany]
  · intro h1 h2 err herr
    have hany : (b.members.any (fun e => e.id = m.id)) = false := by
      simp only [List.any_eq_false]
      intro e he
      simpa using h2 e he
    simp [add_member, Nat.not_le.mpr h1, hany, herr]
  · intro b' h
    obtain ⟨_, _, hv, hb'⟩ := hok b' h
    subst hb'
    exact ⟨hv, rfl, rfl, rfl, rfl⟩
  · intro hlen hpw b' h
    obtain ⟨h1, h2, _, hb'⟩ := hok b' h
    subst hb'
    constructor
    · simp only [List.length_append, List.length_cons, List.length_nil]
      omega
    · rw [List.pairwise_append]
      refine ⟨hpw, List.pairwise_singleton _ _, ?_⟩
      intro a ha c hc
      simp only [List.mem_singleton] at hc
      subst hc
      have := List.any_eq_false.mp h2 a ha
      simpa using this

theorem add_member_spec_witness :
    fullBuilder.members.length ≥ MAX_MEMBERS ∧
    add_member fullBuilder sampleMember = .error .partyFull :=
  ⟨by decide, (add_member_spec fullBuilder sampleMember).1 (by decide)⟩

end PartyModel

namespace PartyModel

/-- **C6 counterexample.** For a member with 2 traits one of which is empty
and a loadout of the wrong length (`sampleMemberBad`), `validate` raises the
loadout-count error, not the trait-non-emptiness error: the source checks
loadout count before trait non-emptiness. -/
theorem validate_order_counterexample :
    validate sampleMemberBad = .error .loadoutCount ∧
    validate sampleMemberBad ≠ .error .traitEmpty := by
  refine ⟨rfl, ?_⟩
  intro h
  simp [validate, sampleMemberBad, sampleMember, setEqStr, STAT_KEYS,
    MIN_STAT, MAX_STAT] at h

/-- **C6 (amended).** `PartyMember` validation fails fast on the first
violated rule, checked in this order: id present, name present, role
present, concept present, stats key-set exact, every stat value in range,
exactly 2 traits, exactly 2 loadout items, traits all non-empty, loadout
items all non-empty, hp in range, tag count 1 or 2, tags all non-empty; in
particular a member with 2 traits one of which is empty and a wrong-length
loadout gets the loadout-count error, since the loadout-count check runs
before the trait-non-emptiness check. -/
theorem validate_fail_fast_order (m : PartyMember) :
    (m.id = "" → validate m = .error .idMissing) ∧
    (m.id ≠ "" → m.name = "" → validate m = .error .nameMissing) ∧
    (m.id ≠ "" → m.name ≠ "" → m.role = "" →
      validate m = .error .roleMissing) ∧
    (m.id ≠ "" → m.name ≠ "" → m.role ≠ "" → m.concept = "" →
      validate m = .error .conceptMissing) ∧
    (m.id ≠ "" → m.name ≠ "" → m.role ≠ "" → m.concept ≠ "" →
      setEqStr (m.stats.map Prod.fst) STAT_KEYS = false →
      validate m = .error .statsKeys) ∧
    (∀ kv, m.id ≠ "" → m.name ≠ "" → m.role ≠ "" → m.concept ≠ "" →
      setEqStr (m.stats.map Prod.fst) STAT_KEYS = true →
      m.stats.find? (fun kv => kv.2 < MIN_STAT || kv.2 > MAX_STAT) = some kv →
      validate m = .error (.statOutOfRange kv.1)) ∧
    (m.id ≠ "" → m.name ≠ "" → m.role ≠ "" → m.concept ≠ "" →
      setEqStr (m.stats.map Prod.fst) STAT_KEYS = true →
      m.stats.find? (fun kv => kv.2 < MIN_STAT || kv.2 > MAX_STAT) = none →
      m.traits.length ≠ 2 → validate m = .error .traitsCount) ∧
    (m.id ≠ "" → m.name ≠ "" → m.role ≠ "" → m.concept ≠ "" →
      setEqStr (m.stats.map Prod.fst) STAT_KEYS = true →
      m.stats.find? (fun kv => kv.2 < MIN_STAT || kv.2 > MAX_STAT) = none →
      m.traits.length = 2 → m.loadout.length ≠ 2 →
      validate m = .error .loadoutCount) ∧
    (m.id ≠ "" → m.name ≠ "" → m.role ≠ "" → m.concept ≠ "" →
      setEqStr (m.stats.map Prod.fst) STAT_KEYS = true →
      m.stats.find? (fun kv => kv.2 < MIN_STAT || kv.2 > MAX_STAT) = none →
      m.traits.length = 2 → m.loadout.length = 2 →
      m.traits.any (fun t => t = "") = true →
      validate m = .error .traitEmpty) ∧
    (m.id ≠ "" → m.name ≠ "" → m.role ≠ "" → m.concept ≠ "" →
      setEqStr (m.stats.map Prod.fst) STAT_KEYS = true →
      m.stats.find? (fun kv => kv.2 < MIN_STAT || kv.2 > MAX_STAT) = none →
      m.traits.length = 2 → m.loadout.length = 2 →
      m.traits.any (fun t => t = "") = false →
      m.loadout.any (fun t => t = "") = true →
      validate m = .error .loadoutEmpty) ∧
    (m.id ≠ "" → m.name ≠ "" → m.role ≠ "" → m.concept ≠ "" →
      setEqStr (m.stats.map Prod.fst) STAT_KEYS = true →
      m.stats.find? (fun kv => kv.2 < MIN_STAT || kv.2 > MAX_STAT) = none →
      m.traits.length = 2 → m.loadout.length = 2 →
      m.traits.any (fun t => t = "") = false →
      m.loadout.any (fun t => t = "") = false →
      (m.hp < MIN_HP ∨ m.hp > MAX_HP) →
      validate m = .error .hpOutOfRange) ∧
    (m.id ≠ "" → m.name ≠ "" → m.role ≠ "" → m.concept ≠ "" →
      setEqStr (m.stats.map Prod.fst) STAT_KEYS = true →
      m.stats.find? (fun kv => kv.2 < MIN_STAT || kv.2 > MAX_STAT) = none →
      m.traits.length = 2 → m.loadout.length = 2 →
      m.traits.any (fun t => t = "") = false →
      m.loadout.any (fun t => t = "") = false →
      MIN_HP ≤ m.hp → m.hp ≤ MAX_HP →
      ¬ (0 < m.tags.length ∧ m.tags.length ≤ 2) →
      validate m = .error .tagsCount) ∧
    (m.id ≠ "" → m.name ≠ "" → m.role ≠ "" → m.concept ≠ "" →
      setEqStr (m.stats.map Prod.fst) STAT_KEYS = true →
      m.stats.find? (fun kv => kv.2 < MIN_STAT || kv.2 > MAX_STAT) = none →
      m.traits.length = 2 → m.loadout.length = 2 →
      m.traits.any (fun t => t = "") = false →
      m.loadout.any (fun t => t = "") = false →
      MIN_HP ≤ m.hp → m.hp ≤ MAX_HP →
      0 < m.tags.length → m.tags.length ≤ 2 →
      m.tags.any (fun t => t = "") = true →
      validate m = .error .tagEmpty) ∧
    (m.id ≠ "" → m.name ≠ "" → m.role ≠ "" → m.concept ≠ "" →
      setEqStr (m.stats.map Prod.fst) STAT_KEYS = true →
      m.stats.find? (fun kv => kv.2 < MIN_STAT || kv.2 > MAX_STAT) = none →
      m.traits.length = 2 → m.loadout.length = 2 →
      m.traits.any (fun t => t = "") = false →
      m.loadout.any (fun t => t = "") = false →
      MIN_HP ≤ m.hp → m.hp ≤ MAX_HP →
      0 < m.tags.length → m.tags.length ≤ 2 →
      m.tags.any (fun t => t = "") = false →
      validate m = .ok ()) := by
  refine ⟨?_, ?_, ?_, ?_, ?_, ?_, ?_, ?_, ?_, ?_, ?_, ?_, ?_, ?_⟩ <;>
    intros <;>
    simp only [validate, *, if_true, if_false] <;>
    simp_all

theorem validate_fail_fast_order_witness :
    sampleMemberBad.traits.length = 2 ∧ sampleMemberBad.loadout.length ≠ 2 ∧
    validate sampleMemberBad = .error .loadoutCount := by
  refine ⟨by decide, by decide, ?_⟩
  exact (validate_fail_fast_order sampleMemberBad).2.2.2.2.2.2.2.1
    (by decide) (by decide) (by decide) (by decide) (by decide) (by decide)
    (by decide) (by decide)

end PartyModel

namespace PartyModel

theorem tupleGt_iff (p q : Int × Int) :
    tupleGt p q = true ↔ (q.1 < p.1 ∨ (p.1 = q.1 ∧ q.2 < p.2)) := by
  simp [tupleGt]

theorem tupleGt_eq_false_iff (p q : Int × Int) :
    tupleGt p q = false ↔ (p.1 < q.1 ∨ (p.1 = q.1 ∧ p.2 ≤ q.2)) := by
  rw [← Bool.not_eq_true, not_iff_comm, tupleGt_iff]
  constructor
  · intro h
    omega
  · intro h
    omega

theorem tupleGt_irrefl (p : Int × Int) : tupleGt p p = false := by
  rw [tupleGt_eq_false_iff]
  omega

theorem tupleGt_false_trans {p q r : Int × Int}
    (h1 : tupleGt p q = false) (h2 : tupleGt q r = false) :
    tupleGt p r = false := by
  rw [tupleGt_eq_false_iff] at *
  omega

theorem tupleGt_true_false {p q r : Int × Int}
    (h1 : tupleGt q p = true) (h2 : tupleGt q r = false) :
    tupleGt p r = false := by
  rw [tupleGt_iff] at h1
  rw [tupleGt_eq_false_iff] at *
  omega

/-- CPython's `max(iterable, key=f)` fold keeps an element of the list and
never returns one that a strictly greater element (under the tuple order on
keys) would beat. -/
theorem pymax_foldl_spec (f : String → Int × Int) (ks : List String) :
    ∀ k0 : String,
      (ks.foldl (fun best k => if tupleGt (f k) (f best) then k else best) k0 = k0 ∨
       ks.foldl (fun best k => if tupleGt (f k) (f best) then k else best) k0 ∈ ks) ∧
      (∀ j, (j = k0 ∨ j ∈ ks) →
        tupleGt (f j)
          (f (ks.foldl (fun best k => if tupleGt (f k) (f best) then k else best) k0)) =
          false) := by
  induction ks with
  | nil =>
    intro k0
    refine ⟨Or.inl rfl, ?_⟩
    rintro j (rfl | hj)
    · exact tupleGt_irrefl _
    · simp at hj
  | cons k ks ih =>
    intro k0
    simp only [List.foldl_cons]
    by_cases hk : tupleGt (f k) (f k0) = true
    · rw [if_pos hk]
      obtain ⟨hmem, hmax⟩ := ih k
      constructor
      · rcases hmem with h | h
        · refine Or.inr ?_
          rw [h]
          exact List.mem_cons_self k ks
        · exact Or.inr (List.mem_cons_of_mem k h)
      · rintro j (rfl | hj)
        · exact tupleGt_true_false hk (hmax k (Or.inl rfl))
        · rcases List.mem_cons.mp hj with rfl | hj'
          · exact hmax j (Or.inl rfl)
          · exact hmax j (Or.inr hj')
    · rw [if_neg hk]
      obtain ⟨hmem, hmax⟩ := ih k0
      constructor
      · rcases hmem with h | h
        · exact Or.inl h
        · exact Or.inr (List.mem_cons_of_mem k h)
      · rintro j (rfl | hj)
        · exact hmax j (Or.inl rfl)
        · rcases List.mem_cons.mp hj with rfl | hj'
          · exact tupleGt_false_trans (Bool.eq_false_iff.mpr hk) (hmax k0 (Or.inl rfl))
          · exact hmax j (Or.inr hj')

/-- **C10.** The compact summary's key stat is the stat with the highest
value, ties broken by the fixed priority `str > dex > int > wit > charm`
(earliest key in `STAT_KEYS` wins); the member with stats
`{str: 2, dex: 2, int: 0, wit: 0, charm: 0}` selects `str` and renders the
fragment `"STR+2"`, and the compact line follows the exact
`{name}-{role} {KEY}{signed value} HP{hp} - {items}; черты: {traits}`
format. -/
theorem compact_key_stat_spec :
    (∀ stats : List (String × Int),
      determine_key_stat stats ∈ STAT_KEYS ∧
      (∀ j ∈ STAT_KEYS,
        dictGet stats j ≤ dictGet stats (determine_key_stat stats) ∧
        (dictGet stats j = dictGet stats (determine_key_stat stats) →
          STAT_KEYS.indexOf (determine_key_stat stats) ≤ STAT_KEYS.indexOf j))) ∧
    determine_key_stat sampleMember.stats = "str" ∧
    member_to_compact sampleMember =
      "Alice-warrior STR+2 HP10 - sword, shield; черты: brave, kind" ∧
    (∀ m : PartyMember, member_to_compact m =
      m.name ++ "-" ++ m.role ++ " " ++
      (pyUpper (determine_key_stat m.stats) ++
        formatSigned (dictGet m.stats (determine_key_stat m.stats))) ++
      " HP" ++ toString m.hp ++ " - " ++ String.intercalate ", " m.loadout ++
      "; черты: " ++ String.intercalate ", " m.traits) := by
  refine ⟨?_, by decide, by decide, fun m => rfl⟩
  intro stats
  have h := pymax_foldl_spec
    (fun k => (dictGet stats k, -(STAT_KEYS.indexOf k : Int)))
    ["dex", "int", "wit", "charm"] "str"
  have hd : determine_key_stat stats =
      ["dex", "int", "wit", "charm"].foldl
        (fun best k =>
          if tupleGt (dictGet stats k, -(STAT_KEYS.indexOf k : Int))
              (dictGet stats best, -(STAT_KEYS.indexOf best : Int))
          then k else best) "str" := rfl
  constructor
  · rw [hd]
    rcases h.1 with h1 | h1
    · rw [h1]
      decide
    · exact List.mem_cons_of_mem _ h1
  · intro j hj
    have hj' : j = "str" ∨ j ∈ ["dex", "int", "wit", "charm"] := by
      simpa [STAT_KEYS] using hj
    have h2 := h.2 j hj'
    rw [tupleGt_eq_false_iff] at h2
    simp only at h2
    rw [hd]
    constructor
    · omega
    · intro heq
      omega

theorem compact_key_stat_spec_witness :
    "dex" ∈ STAT_KEYS ∧
    dictGet sampleMember.stats "dex" ≤
      dictGet sampleMember.stats (determine_key_stat sampleMember.stats) ∧
    (dictGet sampleMember.stats "dex" =
      dictGet sampleMember.stats (determine_key_stat sampleMember.stats) →
      STAT_KEYS.indexOf (determine_key_stat sampleMember.stats) ≤
        STAT_KEYS.indexOf "dex") :=
  ⟨by decide, ((compact_key_stat_spec.1 sampleMember.stats).2 "dex" (by decide)).1,
    ((compact_key_stat_spec.1 sampleMember.stats).2 "dex" (by decide)).2⟩

end PartyModel

namespace DiceSystem

theorem parse_count_form (nds sds tail : List Char)
    (hn : nds ≠ []) (hnd : ∀ c ∈ nds, c.isDigit = true)
    (hs : sds ≠ []) (hsd : ∀ c ∈ sds, c.isDigit = true)
    (hsp : ∀ c ∈ tail, c ≠ ' ')
    (htw : (sds ++ tail).takeWhile Char.isDigit = sds)
    (hdw : (sds ++ tail).dropWhile Char.isDigit = tail) :
    parse_dice_string (String.mk (nds ++ 'd' :: (sds ++ tail))) =
      (if supported_sides.contains (digitsVal sds) then
        (if tail.isEmpty then .ok (digitsVal nds, digitsVal sds, 0)
         else if tail.head? = some '+' then
           match pyInt tail.tail with
           | .ok m => .ok (digitsVal nds, digitsVal sds, m)
           | .error e => .error e
         else if tail.head? = some '-' then
           match pyInt tail.tail with
           | .ok m => .ok (digitsVal nds, digitsVal sds, -m)
           | .error e => .error e
         else .error ("Неверный формат модификатора: " ++ String.mk tail))
       else .error ("Неподдерживаемый тип кости: d" ++ Nat.repr (digitsVal sds))) := by
  obtain ⟨c, nds', rfl⟩ := List.exists_cons_of_ne_nil hn
  have hc : c.isDigit = true := hnd c (List.mem_cons_self c nds')
  have hfil : ((String.mk ((c :: nds') ++ 'd' :: (sds ++ tail))).data).filter
      (fun ch => ch ≠ ' ') = (c :: nds') ++ 'd' :: (sds ++ tail) := by
    refine List.filter_eq_self.mpr ?_
    intro a ha
    simp only [decide_eq_true_eq]
    rcases List.mem_append.mp ha with ha | ha
    · exact Helpers.digit_ne_of (hnd a ha) (by decide)
    · rcases List.mem_cons.mp ha with rfl | ha
      · decide
      · rcases List.mem_append.mp ha with ha | ha
        · exact Helpers.digit_ne_of (hsd a ha) (by decide)
        · exact hsp a ha
  have hne : ¬ (((c :: nds') ++ 'd' :: (sds ++ tail)).head? = some 'd') := by
    simp only [List.cons_append, List.head?_cons, Option.some.injEq]
    exact Helpers.digit_ne_of hc (by decide)
  have ht := Helpers.takeWhile_append_cons Char.isDigit (c :: nds') 'd'
    (sds ++ tail) hnd (by decide)
  have hsde : sds.isEmpty = false := by
    cases sds with
    | nil => exact absurd rfl hs
    | cons a l => rfl
  simp only [parse_dice_string, hfil, if_neg hne, ht.1, ht.2,
    List.isEmpty_cons, List.head?_cons, List.tail_cons, Option.some.injEq,
    htw, hdw]
  simp only [Bool.false_eq_true, if_false, if_true, htw, hdw, hsde]

theorem parse_d_form (sds tail : List Char)
    (hs : sds ≠ []) (hsd : ∀ c ∈ sds, c.isDigit = true)
    (hsp : ∀ c ∈ tail, c ≠ ' ')
    (htw : (sds ++ tail).takeWhile Char.isDigit = sds)
    (hdw : (sds ++ tail).dropWhile Char.isDigit = tail) :
    parse_dice_string (String.mk ('d' :: (sds ++ tail))) =
      (if supported_sides.contains (digitsVal sds) then
        (if tail.isEmpty then .ok (1, digitsVal sds, 0)
         else if tail.head? = some '+' then
           match pyInt tail.tail with
           | .ok m => .ok (1, digitsVal sds, m)
           | .error e => .error e
         else if tail.head? = some '-' then
           match pyInt tail.tail with
           | .ok m => .ok (1, digitsVal sds, -m)
           | .error e => .error e
         else .error ("Неверный формат модификатора: " ++ String.mk tail))
       else .error ("Неподдерживаемый тип кости: d" ++ Nat.repr (digitsVal sds))) := by
  have hfil : ((String.mk ('d' :: (sds ++ tail))).data).filter
      (fun ch => ch ≠ ' ') = 'd' :: (sds ++ tail) := by
    refine List.filter_eq_self.mpr ?_
    intro a ha
    simp only [decide_eq_true_eq]
    rcases List.mem_cons.mp ha with rfl | ha
    · decide
    · rcases List.mem_append.mp ha with ha | ha
      · exact Helpers.digit_ne_of (hsd a ha) (by decide)
      · exact hsp a ha
  have hsde : sds.isEmpty = false := by
    cases sds with
    | nil => exact absurd rfl hs
    | cons a l => rfl
  simp only [parse_dice_string, hfil, List.head?_cons, List.tail_cons,
    Option.some.injEq, htw, hdw]
  simp only [if_true, htw, hdw, hsde, Bool.false_eq_true, if_false]

theorem pyInt_digits (ms : List Char) (hm : ms ≠ [])
    (hmd : ∀ c ∈ ms, c.isDigit = true) :
    pyInt ms = .ok (digitsVal ms) := by
  obtain ⟨c, ms', rfl⟩ := List.exists_cons_of_ne_nil hm
  have hc : c.isDigit = true := hmd c (List.mem_cons_self c ms')
  have h1 : ¬ ((c :: ms').head? = some '+') := by
    simp only [List.head?_cons, Option.some.injEq]
    exact Helpers.digit_ne_of hc (by decide)
  have h2 : ¬ ((c :: ms').head? = some '-') := by
    simp only [List.head?_cons, Option.some.injEq]
    exact Helpers.digit_ne_of hc (by decide)
  have h3 : (c :: ms' ≠ [] ∧ (c :: ms').all Char.isDigit = true) :=
    ⟨List.cons_ne_nil c ms', List.all_eq_true.mpr (fun x hx => hmd x hx)⟩
  simp only [pyInt, if_neg h1, if_neg h2, if_pos h3]

theorem roll_dice_of_parse_ok (rng : Nat → Nat) (s : String) (N S : Nat)
    (M : Int) (hp : parse_dice_string s = .ok (N, S, M))
    (hrng : ∀ i, 1 ≤ rng i ∧ rng i ≤ S) :
    valid_roll (roll_dice rng s) s N S M := by
  unfold roll_dice
  rw [hp]
  refine ⟨rfl, rfl, rfl, rfl, rfl, (List.range N).map rng, rfl, ?_, ?_, rfl⟩
  · simp
  · intro x hx
    obtain ⟨i, _, rfl⟩ := List.mem_map.mp hx
    exact hrng i

theorem prefix_append_ne_empty {a : String} (b : String) (ha : a.length ≠ 0) :
    a ++ b ≠ "" := by
  intro h
  have h0 : (a ++ b).length = 0 := by rw [h]; rfl
  rw [String.length_append] at h0
  omega

theorem pyInt_error_ne (cs : List Char) (e : String)
    (h : pyInt cs = .error e) : e ≠ "" := by
  unfold pyInt at h
  split_ifs at h <;>
    simp only [Except.error.injEq] at h <;>
    (subst h; exact prefix_append_ne_empty _ (by decide))

theorem parse_dice_string_error_ne (s e : String)
    (h : parse_dice_string s = .error e) : e ≠ "" := by
  simp only [parse_dice_string] at h
  repeat' split at h
  all_goals try simp only [Except.error.injEq] at h
  all_goals try subst h
  all_goals first
    | exact prefix_append_ne_empty _ (by decide)
    | simp at h
    | exact pyInt_error_ne _ _ (by assumption)
    | (rename_i heq
       split_ifs at heq <;>
         (simp only [Except.error.injEq] at heq
          subst heq
          exact prefix_append_ne_empty _ (by decide)))

end DiceSystem

namespace DiceSystem

/-- **C1.** For every valid notation `NdS+M`, `NdS-M` or `dS` (digit strings
with `N >= 1` and `S` in the supported set), `roll_dice` succeeds whenever the
random source respects `randint`'s `[1, S]` contract: the outcome has `N`
rolls (1 for the `dS` form), each roll lies in `[1, S]`, and the total is
`sum(rolls)` plus the signed modifier (`0` when absent). -/
theorem valid_notation_roll (nds sds mds : List Char) (rng : Nat → Nat)
    (hn : nds ≠ []) (hnd : ∀ c ∈ nds, c.isDigit = true)
    (hs : sds ≠ []) (hsd : ∀ c ∈ sds, c.isDigit = true)
    (hm : mds ≠ []) (hmd : ∀ c ∈ mds, c.isDigit = true)
    (hN : 1 ≤ digitsVal nds) (hS : digitsVal sds ∈ supported_sides)
    (hrng : ∀ i, 1 ≤ rng i ∧ rng i ≤ digitsVal sds) :
    valid_roll (roll_dice rng (String.mk (nds ++ 'd' :: (sds ++ '+' :: mds))))
      (String.mk (nds ++ 'd' :: (sds ++ '+' :: mds)))
      (digitsVal nds) (digitsVal sds) (digitsVal mds : Int) ∧
    valid_roll (roll_dice rng (String.mk (nds ++ 'd' :: (sds ++ '-' :: mds))))
      (String.mk (nds ++ 'd' :: (sds ++ '-' :: mds)))
      (digitsVal nds) (digitsVal sds) (-(digitsVal mds : Int)) ∧
    valid_roll (roll_dice rng (String.mk ('d' :: sds)))
      (String.mk ('d' :: sds)) 1 (digitsVal sds) 0 := by
  have hcon : supported_sides.contains (digitsVal sds) = true :=
    List.elem_iff.mpr hS
  refine ⟨?_, ?_, ?_⟩
  · have htw := Helpers.takeWhile_append_cons Char.isDigit sds '+' mds hsd
      (by decide)
    have hp := parse_count_form nds sds ('+' :: mds) hn hnd hs hsd
      (fun a ha => by
        rcases List.mem_cons.mp ha with rfl | ha
        · decide
        · exact Helpers.digit_ne_of (hmd a ha) (by decide))
      htw.1 htw.2
    have hp2 : parse_dice_string (String.mk (nds ++ 'd' :: (sds ++ '+' :: mds)))
        = .ok (digitsVal nds, digitsVal sds, (digitsVal mds : Int)) := by
      rw [hp, if_pos hcon]
      simp [pyInt_digits mds hm hmd]
    exact roll_dice_of_parse_ok rng _ _ _ _ hp2 hrng
  · have htw := Helpers.takeWhile_append_cons Char.isDigit sds '-' mds hsd
      (by decide)
    have hp := parse_count_form nds sds ('-' :: mds) hn hnd hs hsd
      (fun a ha => by
        rcases List.mem_cons.mp ha with rfl | ha
        · decide
        · exact Helpers.digit_ne_of (hmd a ha) (by decide))
      htw.1 htw.2
    have hp2 : parse_dice_string (String.mk (nds ++ 'd' :: (sds ++ '-' :: mds)))
        = .ok (digitsVal nds, digitsVal sds, -(digitsVal mds : Int)) := by
      rw [hp, if_pos hcon]
      simp [pyInt_digits mds hm hmd]
    exact roll_dice_of_parse_ok rng _ _ _ _ hp2 hrng
  · have hself := Helpers.takeWhile_eq_self_of Char.isDigit sds hsd
    have hp := parse_d_form sds [] hs hsd (by simp)
      (by simpa using hself.1) (by simpa using hself.2)
    rw [List.append_nil] at hp
    have hp2 : parse_dice_string (String.mk ('d' :: sds))
        = .ok (1, digitsVal sds, 0) := by
      rw [hp, if_pos hcon]
      simp
    exact roll_dice_of_parse_ok rng _ _ _ _ hp2 hrng

theorem valid_notation_roll_witness :
    valid_roll (roll_dice (fun _ => 1) (String.mk (['2'] ++ 'd' :: (['6'] ++ '+' :: ['3']))))
      (String.mk (['2'] ++ 'd' :: (['6'] ++ '+' :: ['3']))) 2 6 3 :=
  (valid_notation_roll ['2'] ['6'] ['3'] (fun _ => 1) (by decide) (by decide)
    (by decide) (by decide) (by decide) (by decide) (by decide) (by decide)
    (fun i => ⟨by show (1 : Nat) ≤ 1; decide,
      by show (1 : Nat) ≤ digitsVal ['6']; decide⟩)).1

/-- **C2.** `roll_dice` is total: for every input string it returns either a
success outcome (no error key) or an error outcome carrying the original
input string, a non-empty error message, `total = 0` and no rolls; and
whenever the notation reaches the sides check with an unsupported die size —
any `[count]d<sides><tail>` form, with or without a leading count and
whatever the (non-digit-initial, space-free) tail after the sides digits,
e.g. `"2d7"` or `"2d7+1"` — the message is the unsupported-die-type one,
since the source checks `f'd{sides}' in self.dice_types` before even looking
at the modifier. -/
theorem roll_dice_never_raises (rng : Nat → Nat) (s : String) :
    (roll_dice rng s).dice_string = s ∧
    ((roll_dice rng s).error = none ∨
      ((roll_dice rng s).total = 0 ∧ (roll_dice rng s).rolls = none ∧
       (roll_dice rng s).count = none ∧ (roll_dice rng s).sides = none ∧
       ∃ msg, (roll_dice rng s).error = some msg ∧ msg ≠ "")) ∧
    (∀ nds sds tail : List Char,
      (∀ c ∈ nds, c.isDigit = true) →
      sds ≠ [] → (∀ c ∈ sds, c.isDigit = true) →
      (∀ c ∈ tail, c ≠ ' ') →
      (∀ c ∈ tail.take 1, c.isDigit = false) →
      digitsVal sds ∉ supported_sides →
      (roll_dice rng (String.mk (nds ++ 'd' :: (sds ++ tail)))).error =
        some ("Неподдерживаемый тип кости: d" ++ Nat.repr (digitsVal sds)) ∧
      (roll_dice rng (String.mk (nds ++ 'd' :: (sds ++ tail)))).total = 0) := by
  refine ⟨?_, ?_, ?_⟩
  · unfold roll_dice
    cases hp : parse_dice_string s <;> rfl
  · unfold roll_dice
    cases hp : parse_dice_string s with
    | ok t => exact Or.inl rfl
    | error e =>
      exact Or.inr ⟨rfl, rfl, rfl, rfl, e, rfl,
        parse_dice_string_error_ne s e hp⟩
  · intro nds sds tail hnd hs hsd hsp htl h3
    have hcon : ¬ (supported_sides.contains (digitsVal sds) = true) :=
      fun hcc => h3 (List.elem_iff.mp hcc)
    have htwdw : (sds ++ tail).takeWhile Char.isDigit = sds ∧
        (sds ++ tail).dropWhile Char.isDigit = tail := by
      cases tail with
      | nil =>
        have hself := Helpers.takeWhile_eq_self_of Char.isDigit sds hsd
        constructor
        · simpa using hself.1
        · simpa using hself.2
      | cons c t =>
        exact Helpers.takeWhile_append_cons Char.isDigit sds c t hsd
          (htl c (by simp))
    by_cases hn : nds = []
    · subst hn
      have hp := parse_d_form sds tail hs hsd hsp htwdw.1 htwdw.2
      rw [if_neg hcon] at hp
      simp only [List.nil_append]
      unfold roll_dice
      rw [hp]
      exact ⟨rfl, rfl⟩
    · have hp := parse_count_form nds sds tail hn hnd hs hsd hsp
        htwdw.1 htwdw.2
      rw [if_neg hcon] at hp
      unfold roll_dice
      rw [hp]
      exact ⟨rfl, rfl⟩

theorem roll_dice_never_raises_witness :
    (roll_dice (fun _ => 1)
        (String.mk (['2'] ++ 'd' :: (['7'] ++ ['+', '1'])))).error =
      some ("Неподдерживаемый тип кости: d" ++ Nat.repr (digitsVal ['7'])) ∧
    (roll_dice (fun _ => 1)
        (String.mk (['2'] ++ 'd' :: (['7'] ++ ['+', '1'])))).total = 0 :=
  (roll_dice_never_raises (fun _ => 1) "2d7+1").2.2 ['2'] ['7'] ['+', '1']
    (by decide) (by decide) (by decide) (by decide) (by decide) (by decide)

end DiceSystem
